import Mathlib

/-!
Verification of the task-manager core: the `Task` entity
(src/src/frontend/controllers/UIController.ts, class `Task`) and the
`DatabaseService` store (src/unnamed/part_003).

Modelling conventions:
* JS `Date` values are modelled as `Int` millisecond timestamps; `new Date()`
  (the current clock) is an explicit `now : Int` parameter on every function
  whose source reads the clock.
* Thrown `Error`s become `Except` errors; the distinct error messages of the
  source are modelled as constructors of `VErr` / `DbErr`.
* The SQLite table is a `List Row` in rowid (insertion) order.  `completed` is
  stored as the source stores it (`task.completed ? 1 : 0`, read back with
  `=== 1`), hence `Nat` in `Row`.  ISO-8601 `TEXT` timestamps compare exactly
  like their numeric values, so `createdAt`/`dueDate` columns are `Int`.
* A statement that fails (constraint violation, thrown error before the
  `UPDATE`/`INSERT` runs) leaves the table untouched; the `...Run` wrappers
  return the resulting table in both the success and the failure case.
-/

namespace TaskApp

/-- The four validation failures thrown by the `Task` entity
(`"Task title cannot be empty"`, `"Task title cannot exceed 255 characters"`,
`"Task ID cannot be empty"`, `"Due date cannot be in the past"`). -/
inductive VErr where
  | emptyTitle
  | titleTooLong
  | emptyId
  | pastDueDate
deriving DecidableEq, Repr

/-- Errors surfaced by `DatabaseService` operations (suffix of the message):
`notFound` is `"Task with id ... not found"`, `duplicateId` is the wrapped
SQLite UNIQUE-constraint failure of `addTask`, `validation e` is an entity
error propagated unwrapped (the `new Task` inside `updateTask`), `parse e` is
an entity error wrapped as `"Failed to parse task(s): ..."` by a read. -/
inductive DbErr where
  | notFound (id : String)
  | duplicateId (id : String)
  | validation (e : VErr)
  | parse (e : VErr)
deriving DecidableEq, Repr

/-- The in-memory `Task` entity: six public fields. -/
structure Task where
  id : String
  title : String
  description : String
  completed : Bool
  dueDate : Option Int
  createdAt : Int
deriving DecidableEq, Repr

/-- The characters `String.prototype.trim` strips (the ASCII part of the
ECMAScript WhiteSpace/LineTerminator sets; the titles of this repository are
ordinary text, for which this is exact). -/
def isJsWS (c : Char) : Bool :=
  c == ' ' || c == '\t' || c == '\n' || c == '\r' || c == '\x0b' || c == '\x0c'

/-- JS `s.trim()`: drop leading and trailing whitespace. -/
def jsTrim (s : String) : String :=
  String.mk (((s.data.dropWhile isJsWS).reverse.dropWhile isJsWS).reverse)

/-- `validateTitle`: `!title || title.trim().length === 0` throws `EmptyTitle`
(an empty string is the only falsy string), then `title.length > 255` throws
`TitleTooLong` — note the raw, untrimmed length, and that the emptiness check
runs first. -/
def validateTitle (title : String) : Except VErr Unit :=
  if title.length == 0 || (jsTrim title).length == 0 then .error .emptyTitle
  else if title.length > 255 then .error .titleTooLong
  else .ok ()

/-- `validateId`: `!id || id.trim().length === 0` throws `EmptyId`. -/
def validateId (id : String) : Except VErr Unit :=
  if id.length == 0 || (jsTrim id).length == 0 then .error .emptyId
  else .ok ()

/-- `validateDueDate`: `if (dueDate && dueDate < new Date())` throws
`PastDueDate`.  Every `Date` object is truthy, so the guard is exactly
"non-null and strictly before now". -/
def validateDueDate (now : Int) (dueDate : Option Int) : Except VErr Unit :=
  match dueDate with
  | some d => if d < now then .error .pastDueDate else .ok ()
  | none => .ok ()

/-- The `Task` constructor: validates title, id, dueDate in that order, then
fills the fields.  No partial construction: on error no entity exists. -/
def Task.make (now : Int) (id title : String) (description : String)
    (completed : Bool) (dueDate : Option Int) (createdAt : Int) :
    Except VErr Task :=
  match validateTitle title with
  | .error e => .error e
  | .ok _ =>
    match validateId id with
    | .error e => .error e
    | .ok _ =>
      match validateDueDate now dueDate with
      | .error e => .error e
      | .ok _ =>
        .ok { id := id, title := title, description := description,
              completed := completed, dueDate := dueDate, createdAt := createdAt }

/-- `complete()`: sets `completed = true`. -/
def Task.complete (t : Task) : Task := { t with completed := true }

/-- `reopen()`: sets `completed = false`. -/
def Task.reopen (t : Task) : Task := { t with completed := false }

/-- `updateTitle(title)`: `validateTitle(title); this.title = title` —
a throw leaves the entity exactly as it was, so the wrapper returns the
resulting entity state in both cases. -/
def Task.updateTitleRun (t : Task) (title : String) :
    Except VErr Unit × Task :=
  match validateTitle title with
  | .error e => (.error e, t)
  | .ok _ => (.ok (), { t with title := title })

/-- `updateDescription(description)`: unconditional assignment. -/
def Task.updateDescription (t : Task) (description : String) : Task :=
  { t with description := description }

/-- `setDueDate(date)`: `validateDueDate(date); this.dueDate = date` —
a throw leaves the entity exactly as it was. -/
def Task.setDueDateRun (now : Int) (t : Task) (date : Option Int) :
    Except VErr Unit × Task :=
  match validateDueDate now date with
  | .error e => (.error e, t)
  | .ok _ => (.ok (), { t with dueDate := date })

/-- `isOverdue()`: false when `dueDate` is null or the task is completed,
otherwise `dueDate < new Date()`. -/
def Task.isOverdue (now : Int) (t : Task) : Bool :=
  match t.dueDate with
  | none => false
  | some d => if t.completed then false else decide (d < now)

/-- `clone()`: `new Task(id, title, description, completed,
dueDate ? new Date(dueDate) : null, new Date(createdAt))` — the copies are
value-equal, and the constructor re-runs all validations (so it can throw). -/
def Task.clone (now : Int) (t : Task) : Except VErr Task :=
  Task.make now t.id t.title t.description t.completed t.dueDate t.createdAt

/-- One row of the `tasks` table.  `completed` is the stored INTEGER (the
source writes `task.completed ? 1 : 0`); the timestamp columns hold the
instants encoded by the stored ISO-8601 text. -/
structure Row where
  id : String
  title : String
  description : String
  completed : Nat
  createdAt : Int
  dueDate : Option Int
deriving DecidableEq, Repr

/-- `rowToTask(row)`: `new Task(row.id, row.title, row.description || "",
row.completed === 1, row.dueDate ? new Date(row.dueDate) : null,
new Date(row.createdAt))`.  (`row.description || ""` is the identity on the
strings this service ever writes, which are never NULL.) -/
def rowToTask (now : Int) (row : Row) : Except VErr Task :=
  Task.make now row.id row.title row.description (row.completed == 1)
    row.dueDate row.createdAt

/-- The parameter list of `addTask`'s INSERT: the entity serialized to a row. -/
def taskToRow (t : Task) : Row :=
  { id := t.id, title := t.title, description := t.description,
    completed := if t.completed then 1 else 0,
    createdAt := t.createdAt, dueDate := t.dueDate }

/-- `addTask(task)`: a single `INSERT` into a table whose `id` is the PRIMARY
KEY — it appends the row, or fails on a duplicate id writing nothing. -/
def addTask (rows : List Row) (t : Task) : Except DbErr (List Row) :=
  if rows.any (fun r => r.id == t.id) then .error (.duplicateId t.id)
  else .ok (rows ++ [taskToRow t])

/-- `addTask` together with the resulting table (unchanged on failure, since
the single INSERT statement is atomic). -/
def addTaskRun (rows : List Row) (t : Task) :
    Except DbErr Unit × List Row :=
  match addTask rows t with
  | .error e => (.error e, rows)
  | .ok rows2 => (.ok (), rows2)

/-- The ordering used by `ORDER BY createdAt ASC` (ISO text order coincides
with the encoded instants). -/
def createdLE (a b : Row) : Prop := a.createdAt ≤ b.createdAt

instance : DecidableRel createdLE := fun a b => by
  unfold createdLE; infer_instance

instance : IsTotal Row createdLE := ⟨fun a b => Int.le_total a.createdAt b.createdAt⟩

instance : IsTrans Row createdLE := ⟨fun _ _ _ hab hbc => le_trans hab hbc⟩

/-- `rows.map((row) => this.rowToTask(row))` inside `getTasks`'s try-block:
the first row whose reconstruction throws aborts the whole read. -/
def mapRows (now : Int) : List Row → Except VErr (List Task)
  | [] => .ok []
  | r :: rs =>
    match rowToTask now r with
    | .error e => .error e
    | .ok t =>
      match mapRows now rs with
      | .error e => .error e
      | .ok ts => .ok (t :: ts)

/-- `getTasks()`: `SELECT * FROM tasks ORDER BY createdAt ASC`, reconstruct
every row (wrapping a throw as `"Failed to parse tasks"`), then `reverse()`. -/
def getTasks (now : Int) (rows : List Row) : Except DbErr (List Task) :=
  match mapRows now (rows.insertionSort createdLE) with
  | .error e => .error (.parse e)
  | .ok ts => .ok ts.reverse

/-- `getTaskById(id)`: `SELECT * FROM tasks WHERE id = ?`; no row resolves
`null`, a row is reconstructed (wrapping a throw as `"Failed to parse task"`). -/
def getTaskById (now : Int) (rows : List Row) (id : String) :
    Except DbErr (Option Task) :=
  match rows.find? (fun r => r.id == id) with
  | none => .ok none
  | some row =>
    match rowToTask now row with
    | .error e => .error (.parse e)
    | .ok t => .ok (some t)

/-- The `Partial<Task>` argument of `updateTask`.  `none` is an absent
(`undefined`) property.  For `dueDate` the JS value may be `undefined`,
`null`, or a `Date`, hence the nested option: `some none` is an explicit
`null`, `some (some d)` a date. -/
structure Updates where
  title : Option String := none
  description : Option String := none
  completed : Option Bool := none
  dueDate : Option (Option Int) := none
deriving Repr

/-- The `??` (nullish-coalescing) merge for the always-non-null fields. -/
def nc {α : Type} : Option α → α → α
  | some a, _ => a
  | none, b => b

/-- The `??` merge for `dueDate`: both `undefined` and `null` on the left
fall through to the existing value — only a `Date` replaces it. -/
def ncDue : Option (Option Int) → Option Int → Option Int
  | some (some d), _ => some d
  | some none, e => e
  | none, e => e

/-- `updateTask(id, updates)`: read the existing task (its errors propagate
as-is), reject `NotFound` on a missing id, rebuild a full entity through the
`Task` constructor merging `updates` over the existing values with `??`
(its validation error propagates unwrapped), then a single `UPDATE ... SET
title, description, completed, dueDate WHERE id = ?` — `id` and `createdAt`
are never written. -/
def updateTask (now : Int) (rows : List Row) (id : String) (u : Updates) :
    Except DbErr (List Row) :=
  match getTaskById now rows id with
  | .error e => .error e
  | .ok none => .error (.notFound id)
  | .ok (some existing) =>
    match Task.make now id (nc u.title existing.title)
        (nc u.description existing.description)
        (nc u.completed existing.completed)
        (ncDue u.dueDate existing.dueDate) existing.createdAt with
    | .error e => .error (.validation e)
    | .ok t =>
      .ok (rows.map fun r =>
        if r.id == id then
          { r with title := t.title, description := t.description,
                   completed := if t.completed then 1 else 0,
                   dueDate := t.dueDate }
        else r)

/-- `updateTask` together with the resulting table (every failure happens
before the UPDATE statement runs, so the table is unchanged on failure). -/
def updateTaskRun (now : Int) (rows : List Row) (id : String) (u : Updates) :
    Except DbErr Unit × List Row :=
  match updateTask now rows id u with
  | .error e => (.error e, rows)
  | .ok rows2 => (.ok (), rows2)

/-- `deleteTask(id)`: `DELETE FROM tasks WHERE id = ?` — always resolves,
removing the matching rows (none is fine). -/
def deleteTask (rows : List Row) (id : String) :
    Except DbErr Unit × List Row :=
  (.ok (), rows.filter (fun r => r.id != id))

/-- `getTaskCount()`: `SELECT COUNT(*) FROM tasks`. -/
def getTaskCount (rows : List Row) : Nat := rows.length

/-- `getCompletedCount()`: `SELECT COUNT(*) FROM tasks WHERE completed = 1`. -/
def getCompletedCount (rows : List Row) : Nat :=
  (rows.filter (fun r => r.completed == 1)).length

/-!
Heap model of mutable JS `Date` objects, for the independence property of
`clone()`.  A `Date` is a heap cell holding a millisecond value; `new Date(d)`
allocates a fresh cell with `d`'s current value; `date.setTime(v)` mutates a
cell in place. -/

/-- The heap of allocated `Date` cells, addressed by allocation index. -/
abbrev Heap := List Int

/-- The millisecond value currently held by the `Date` at address `a`. -/
def Heap.val (h : Heap) (a : Nat) : Int := h.getD a 0

/-- `new Date(v)`: allocate a fresh cell, returning the new heap and the
fresh address. -/
def Heap.alloc (h : Heap) (v : Int) : Heap × Nat := (h ++ [v], h.length)

/-- `date.setTime(v)` on the `Date` at address `a`: in-place mutation. -/
def Heap.setTime (h : Heap) (a : Nat) (v : Int) : Heap := h.set a v

/-- The `Task` entity with its two `Date`-typed fields as heap references. -/
structure TaskH where
  id : String
  title : String
  description : String
  completed : Bool
  dueDate : Option Nat
  createdAt : Nat
deriving DecidableEq, Repr

/-- The entity's `Date` references point into the heap. -/
def TaskH.wf (h : Heap) (t : TaskH) : Prop :=
  t.createdAt < h.length ∧ ∀ a, t.dueDate = some a → a < h.length

/-- `clone()`: `new Task(this.id, this.title, this.description,
this.completed, this.dueDate ? new Date(this.dueDate) : null,
new Date(this.createdAt))`.  The two argument `Date`s are freshly allocated
copies; the constructor then re-runs the validations (reading the due date
value through the copied reference) before producing the new entity. -/
def cloneH (now : Int) (h : Heap) (t : TaskH) : Except VErr (Heap × TaskH) :=
  let p1 : Heap × Option Nat :=
    match t.dueDate with
    | some a =>
      match Heap.alloc h (Heap.val h a) with
      | (h1, a1) => (h1, some a1)
    | none => (h, none)
  match Heap.alloc p1.1 (Heap.val p1.1 t.createdAt) with
  | (h2, ca) =>
    match validateTitle t.title with
    | .error e => .error e
    | .ok _ =>
      match validateId t.id with
      | .error e => .error e
      | .ok _ =>
        match validateDueDate now (p1.2.map (Heap.val h2)) with
        | .error e => .error e
        | .ok _ =>
          .ok (h2, { id := t.id, title := t.title, description := t.description,
                     completed := t.completed, dueDate := p1.2, createdAt := ca })

/-!  Concrete data used by the closed witness and counterexample theorems.  -/

/-- A readable row whose due date is still in the future at the reference
instant `10`. -/
def exRowA : Row :=
  { id := "t1", title := "A", description := "d", completed := 0,
    createdAt := 0, dueDate := some 100 }

/-- A store holding just `exRowA`. -/
def exRows : List Row := [exRowA]

/-- A row whose due date (5) is already past at the reference instant `10`. -/
def exRowPast : Row :=
  { id := "t1", title := "A", description := "d", completed := 0,
    createdAt := 0, dueDate := some 5 }

/-- A store holding just `exRowPast`. -/
def exRowsPast : List Row := [exRowPast]

/-- A store holding two readable rows, `"t2"` created after `"t1"`. -/
def exRowsTwo : List Row :=
  [{ id := "t1", title := "A", description := "", completed := 0,
     createdAt := 1, dueDate := none },
   { id := "t2", title := "B", description := "", completed := 1,
     createdAt := 2, dueDate := none }]

/-- A concrete entity with a future due date (relative to instant `10`). -/
def exTask : Task :=
  { id := "t1", title := "A", description := "d", completed := false,
    dueDate := some 100, createdAt := 0 }

/-- The pure reconstruction of a row, used to instantiate the read-back
function of the `getAll` theorem. -/
def reconstruct (r : Row) : Task :=
  { id := r.id, title := r.title, description := r.description,
    completed := r.completed == 1, dueDate := r.dueDate,
    createdAt := r.createdAt }

/-! ### Helper lemmas -/

lemma make_ok_iff {now : Int} {id title description : String} {completed : Bool}
    {dueDate : Option Int} {createdAt : Int} {t : Task} :
    Task.make now id title description completed dueDate createdAt = .ok t ↔
      validateTitle title = .ok () ∧ validateId id = .ok () ∧
      validateDueDate now dueDate = .ok () ∧
      t = { id := id, title := title, description := description,
            completed := completed, dueDate := dueDate,
            createdAt := createdAt } := by
  unfold Task.make
  cases h1 : validateTitle title <;> cases h2 : validateId id <;>
    cases h3 : validateDueDate now dueDate <;> simp_all
  tauto

lemma rowToTask_ok_iff {now : Int} {r : Row} {t : Task} :
    rowToTask now r = .ok t ↔
      validateTitle r.title = .ok () ∧ validateId r.id = .ok () ∧
      validateDueDate now r.dueDate = .ok () ∧ t = reconstruct r := by
  unfold rowToTask reconstruct
  exact make_ok_iff

lemma unique_id_eq {rows : List Row}
    (hu : rows.Pairwise (fun a b => a.id ≠ b.id)) {x y : Row}
    (hx : x ∈ rows) (hy : y ∈ rows) (hxy : x.id = y.id) : x = y := by
  induction rows with
  | nil => cases hx
  | cons a l ih =>
    rcases List.pairwise_cons.mp hu with ⟨ha, hl⟩
    rcases List.mem_cons.mp hx with rfl | hx2
    · rcases List.mem_cons.mp hy with rfl | hy2
      · rfl
      · exact absurd hxy (ha y hy2)
    · rcases List.mem_cons.mp hy with rfl | hy2
      · exact absurd hxy.symm (ha x hx2)
      · exact ih hl hx2 hy2

lemma find?_unique {rows : List Row} {id : String} {r0 x : Row}
    (hu : rows.Pairwise (fun a b => a.id ≠ b.id))
    (hf : rows.find? (fun r => r.id == id) = some r0)
    (hx : x ∈ rows) (hxid : x.id = id) : x = r0 := by
  have hr0 : r0 ∈ rows := List.mem_of_find?_eq_some hf
  have hr0id : r0.id = id := by
    have := List.find?_some hf
    simpa using this
  exact unique_id_eq hu hx hr0 (hxid.trans hr0id.symm)

lemma updateTask_ok {now : Int} {rows : List Row} {id : String} {u : Updates}
    {rows2 : List Row} (h : updateTask now rows id u = .ok rows2) :
    ∃ r0 t, rows.find? (fun r => r.id == id) = some r0 ∧
      Task.make now id (nc u.title r0.title) (nc u.description r0.description)
        (nc u.completed (r0.completed == 1)) (ncDue u.dueDate r0.dueDate)
        r0.createdAt = .ok t ∧
      rows2 = rows.map (fun r =>
        if r.id == id then
          { r with title := t.title, description := t.description,
                   completed := if t.completed then 1 else 0,
                   dueDate := t.dueDate } else r) := by
  cases hf : rows.find? (fun r => r.id == id) with
  | none => simp [updateTask, getTaskById, hf] at h
  | some r0 =>
    cases hr : rowToTask now r0 with
    | error e => simp [updateTask, getTaskById, hf, hr] at h
    | ok ex =>
      obtain ⟨-, -, -, hex⟩ := rowToTask_ok_iff.mp hr
      subst hex
      cases hm : Task.make now id (nc u.title r0.title)
          (nc u.description r0.description)
          (nc u.completed (r0.completed == 1)) (ncDue u.dueDate r0.dueDate)
          r0.createdAt with
      | error e =>
        simp [updateTask, getTaskById, hf, hr, reconstruct, hm] at h
      | ok t =>
        simp only [updateTask, getTaskById, hf, hr, reconstruct, hm] at h
        refine ⟨r0, t, rfl, hm, ?_⟩
        simpa using h.symm

lemma mapRows_ok_of {now : Int} {l : List Row} {g : Row → Task}
    (hg : ∀ r ∈ l, rowToTask now r = .ok (g r)) :
    mapRows now l = .ok (l.map g) := by
  induction l with
  | nil => rfl
  | cons a l ih =>
    have ha := hg a (List.mem_cons_self a l)
    have htl := ih (fun r hr => hg r (List.mem_cons_of_mem a hr))
    simp [mapRows, ha, htl]

lemma mapRows_error_of_mem {now : Int} {l : List Row} {r : Row} {e : VErr}
    (hmem : r ∈ l) (he : rowToTask now r = .error e) :
    ∃ e2, mapRows now l = .error e2 := by
  induction l with
  | nil => cases hmem
  | cons a l ih =>
    cases ha : rowToTask now a with
    | error e2 => exact ⟨e2, by simp [mapRows, ha]⟩
    | ok t =>
      rcases List.mem_cons.mp hmem with rfl | hmem2
      · rw [ha] at he; cases he
      · obtain ⟨e2, he2⟩ := ih hmem2
        exact ⟨e2, by simp [mapRows, ha, he2]⟩

lemma filter_eq_single_of_unique {rows : List Row} {r : Row} {idv : String}
    (hu : rows.Pairwise (fun a b => a.id ≠ b.id))
    (hmem : r ∈ rows) (hid : r.id = idv) :
    rows.filter (fun x => x.id == idv) = [r] := by
  induction rows with
  | nil => cases hmem
  | cons a l ih =>
    rcases List.pairwise_cons.mp hu with ⟨ha, hl⟩
    rcases List.mem_cons.mp hmem with rfl | hmem2
    · have hnil : l.filter (fun x => x.id == idv) = [] := by
        apply List.filter_eq_nil_iff.mpr
        intro x hx
        simpa using fun hcontra => ha x hx (hid.trans hcontra.symm)
      simp [List.filter_cons, hid, hnil]
    · have hne : (a.id == idv) = false := by
        simpa using fun hcontra => ha r hmem2 (hcontra.trans hid.symm)
      simp [List.filter_cons, hne, ih hl hmem2]

lemma jsTrim_len_zero_of_len_zero {s : String} (h : s.length = 0) :
    (jsTrim s).length = 0 := by
  cases s with
  | mk data =>
    simp only [String.length] at h
    have hnil : data = [] := List.length_eq_zero.mp h
    subst hnil
    rfl

lemma validateTitle_eq_empty {s : String} (h : (jsTrim s).length = 0) :
    validateTitle s = .error .emptyTitle := by
  simp [validateTitle, h]

lemma validateTitle_eq_tooLong {s : String} (h1 : (jsTrim s).length ≠ 0)
    (h2 : 255 < s.length) : validateTitle s = .error .titleTooLong := by
  have h0 : s.length ≠ 0 := fun hz => h1 (jsTrim_len_zero_of_len_zero hz)
  simp [validateTitle, h0, h1, h2]

lemma validateTitle_eq_ok {s : String} (h1 : (jsTrim s).length ≠ 0)
    (h2 : s.length ≤ 255) : validateTitle s = .ok () := by
  have h0 : s.length ≠ 0 := fun hz => h1 (jsTrim_len_zero_of_len_zero hz)
  simp [validateTitle, h0, h1, Nat.not_lt.mpr h2]

lemma ncDue_some_ne_none (x : Option (Option Int)) (d : Int) :
    ncDue x (some d) ≠ none := by
  rcases x with _ | (_ | d2) <;> simp [ncDue]

lemma Row.eq_of_fields {a b : Row} (h1 : a.id = b.id) (h2 : a.title = b.title)
    (h3 : a.description = b.description) (h4 : a.completed = b.completed)
    (h5 : a.createdAt = b.createdAt) (h6 : a.dueDate = b.dueDate) : a = b := by
  cases a; cases b; simp_all

/-! ### Claim theorems -/

/-- C3: for every id absent from the store, `updateTask` fails with the
NotFound error leaving the store unchanged, `getTaskById` returns the `null`
sentinel without raising, and `deleteTask` succeeds as an idempotent no-op —
for every store state, clock instant, and update payload. -/
theorem claim3_absent_id_asymmetry (now : Int) (rows : List Row) (id : String)
    (u : Updates) (habs : ∀ r ∈ rows, r.id ≠ id) :
    updateTaskRun now rows id u = (.error (.notFound id), rows) ∧
    getTaskById now rows id = .ok none ∧
    deleteTask rows id = (.ok (), rows) := by
  have hf : rows.find? (fun r => r.id == id) = none :=
    List.find?_eq_none.mpr (fun x hx => by simpa using habs x hx)
  refine ⟨?_, ?_, ?_⟩
  · simp [updateTaskRun, updateTask, getTaskById, hf]
  · simp [getTaskById, hf]
  · have : rows.filter (fun r => r.id != id) = rows :=
      List.filter_eq_self.mpr (fun r hr => by simpa using habs r hr)
    simp [deleteTask, this]

/-- C3 witness: the asymmetry at the concrete absent id `"zz"`. -/
theorem claim3_absent_id_asymmetry_witness :
    updateTaskRun 10 exRows "zz" { title := some "X" } =
      (.error (.notFound "zz"), exRows) ∧
    getTaskById 10 exRows "zz" = .ok none ∧
    deleteTask exRows "zz" = (.ok (), exRows) :=
  claim3_absent_id_asymmetry 10 exRows "zz" { title := some "X" } (by decide)

/-- C5: adding a task whose id already has a row fails with the DuplicateId
error without writing anything — afterwards the store is unchanged and still
contains exactly one row for that id. -/
theorem claim5_duplicate_add (rows : List Row) (t : Task) (r : Row)
    (hu : rows.Pairwise (fun a b => a.id ≠ b.id))
    (hmem : r ∈ rows) (hid : r.id = t.id) :
    addTaskRun rows t = (.error (.duplicateId t.id), rows) ∧
    rows.filter (fun x => x.id == t.id) = [r] := by
  have hany : rows.any (fun x => x.id == t.id) = true :=
    List.any_eq_true.mpr ⟨r, hmem, by simpa using hid⟩
  exact ⟨by simp [addTaskRun, addTask, hany],
         filter_eq_single_of_unique hu hmem hid⟩

/-- C5 witness: re-adding id `"t1"` to the concrete one-row store. -/
theorem claim5_duplicate_add_witness :
    addTaskRun exRows exTask = (.error (.duplicateId "t1"), exRows) ∧
    exRows.filter (fun x => x.id == "t1") = [exRowA] :=
  claim5_duplicate_add exRows exTask exRowA (by simp [exRows])
    (by simp [exRows]) (by decide)

/-- C6 (amended): a title whose trim is empty always fails with EmptyTitle
(in `updateTitle`, leaving the entity unchanged, and in the constructor).
A title with non-empty trim but raw length above 255 fails with TitleTooLong
— the whitespace-only titles longer than 255 are claimed for TitleTooLong by
the original claim but actually fail with EmptyTitle, because the emptiness
check runs first.  A title with non-empty trim of raw length at most 255
passes: `updateTitle` replaces the title, and construction succeeds with that
title whenever id and due date are themselves valid. -/
theorem claim6_title_validation :
    (∀ title : String, (jsTrim title).length = 0 →
       (∀ t : Task, Task.updateTitleRun t title = (.error .emptyTitle, t)) ∧
       (∀ (now : Int) (id desc : String) (c : Bool) (due : Option Int)
          (ca : Int), Task.make now id title desc c due ca =
            .error .emptyTitle)) ∧
    (∀ title : String, (jsTrim title).length ≠ 0 → 255 < title.length →
       (∀ t : Task, Task.updateTitleRun t title = (.error .titleTooLong, t)) ∧
       (∀ (now : Int) (id desc : String) (c : Bool) (due : Option Int)
          (ca : Int), Task.make now id title desc c due ca =
            .error .titleTooLong)) ∧
    (∀ title : String, (jsTrim title).length ≠ 0 → title.length ≤ 255 →
       (∀ t : Task, Task.updateTitleRun t title =
          (.ok (), { t with title := title })) ∧
       (∀ (now : Int) (id desc : String) (c : Bool) (due : Option Int)
          (ca : Int), validateId id = .ok () →
          validateDueDate now due = .ok () →
          Task.make now id title desc c due ca =
            .ok { id := id, title := title, description := desc,
                  completed := c, dueDate := due, createdAt := ca })) := by
  refine ⟨?_, ?_, ?_⟩
  · intro title h
    have hv := validateTitle_eq_empty h
    exact ⟨fun t => by simp [Task.updateTitleRun, hv],
           fun now id desc c due ca => by simp [Task.make, hv]⟩
  · intro title h1 h2
    have hv := validateTitle_eq_tooLong h1 h2
    exact ⟨fun t => by simp [Task.updateTitleRun, hv],
           fun now id desc c due ca => by simp [Task.make, hv]⟩
  · intro title h1 h2
    have hv := validateTitle_eq_ok h1 h2
    exact ⟨fun t => by simp [Task.updateTitleRun, hv],
           fun now id desc c due ca hid hdue => by
             simp [Task.make, hv, hid, hdue]⟩

/-- C6 witness: `" x "` (trim non-empty, short) is accepted with the exact
title kept; `"  "` fails with EmptyTitle. -/
theorem claim6_title_validation_witness :
    Task.updateTitleRun exTask " x " = (.ok (), { exTask with title := " x " }) ∧
    Task.make 10 "t1" " x " "" false none 0 =
      .ok { id := "t1", title := " x ", description := "", completed := false,
            dueDate := none, createdAt := 0 } ∧
    Task.updateTitleRun exTask "  " = (.error .emptyTitle, exTask) :=
  ⟨(claim6_title_validation.2.2 " x " (by decide) (by decide)).1 exTask,
   (claim6_title_validation.2.2 " x " (by decide) (by decide)).2 10 "t1" ""
     false none 0 rfl rfl,
   (claim6_title_validation.1 "  " (by decide)).1 exTask⟩

set_option maxRecDepth 8192 in
/-- C6 counterexample: a title of 256 spaces is longer than 255 characters,
yet construction and `updateTitle` fail with EmptyTitle, not TitleTooLong. -/
theorem claim6_counterexample :
    (String.mk (List.replicate 256 ' ')).length = 256 ∧
    Task.make 0 "t1" (String.mk (List.replicate 256 ' ')) "" false none 0 =
      .error .emptyTitle ∧
    Task.updateTitleRun exTask (String.mk (List.replicate 256 ' ')) =
      (.error .emptyTitle, exTask) ∧
    VErr.emptyTitle ≠ VErr.titleTooLong :=
  ⟨by decide, rfl, rfl, by decide⟩

/-- C7: a due date strictly earlier than the clock at the call makes the
constructor fail with PastDueDate (when title and id themselves validate,
those checks running first) and makes `setDueDate` fail with PastDueDate
leaving the entity unchanged; `setDueDate(null)` always succeeds and clears
the due date, for every prior entity state, with no validation. -/
theorem claim7_past_due_date :
    (∀ (now d : Int), d < now →
       ∀ (id title desc : String) (c : Bool) (ca : Int),
         validateTitle title = .ok () → validateId id = .ok () →
         Task.make now id title desc c (some d) ca = .error .pastDueDate) ∧
    (∀ (now : Int) (t : Task) (d : Int), d < now →
       Task.setDueDateRun now t (some d) = (.error .pastDueDate, t)) ∧
    (∀ (now : Int) (t : Task),
       Task.setDueDateRun now t none = (.ok (), { t with dueDate := none })) := by
  refine ⟨?_, ?_, ?_⟩
  · intro now d hd id title desc c ca ht hid
    simp [Task.make, ht, hid, validateDueDate, hd]
  · intro now t d hd
    simp [Task.setDueDateRun, validateDueDate, hd]
  · intro now t
    simp [Task.setDueDateRun, validateDueDate]

/-- C7 witness: at clock 10, due date 5 is rejected by constructor and
`setDueDate`, and `setDueDate(null)` clears the concrete entity's due date. -/
theorem claim7_past_due_date_witness :
    Task.make 10 "t1" "A" "" false (some 5) 0 = .error .pastDueDate ∧
    Task.setDueDateRun 10 exTask (some 5) = (.error .pastDueDate, exTask) ∧
    Task.setDueDateRun 10 exTask none = (.ok (), { exTask with dueDate := none }) :=
  ⟨claim7_past_due_date.1 10 5 (by decide) "t1" "A" "" false 0 rfl rfl,
   claim7_past_due_date.2.1 10 exTask 5 (by decide),
   claim7_past_due_date.2.2 10 exTask⟩

/-- C1: in a store with unique ids and well-formed completed flags, every
successful title-only update rewrites exactly the title of the matching row;
in general every successful update leaves unsupplied fields at their prior
values and never writes id or createdAt. -/
theorem claim1_update_frame (now : Int) (rows : List Row) (id : String)
    (hu : rows.Pairwise (fun a b => a.id ≠ b.id))
    (hwf : ∀ r ∈ rows, r.completed ≤ 1) :
    (∀ (newT : String) (rows2 : List Row),
       updateTask now rows id { title := some newT } = .ok rows2 →
       rows2 = rows.map (fun r =>
         if r.id == id then { r with title := newT } else r)) ∧
    (∀ (u : Updates) (rows2 : List Row),
       updateTask now rows id u = .ok rows2 →
       rows2 = rows.map (fun r =>
         if r.id == id then
           { r with title := nc u.title r.title,
                    description := nc u.description r.description,
                    completed :=
                      if nc u.completed (r.completed == 1) then 1 else 0,
                    dueDate := ncDue u.dueDate r.dueDate }
         else r)) := by
  have hgen : ∀ (u : Updates) (rows2 : List Row),
      updateTask now rows id u = .ok rows2 →
      rows2 = rows.map (fun r =>
        if r.id == id then
          { r with title := nc u.title r.title,
                   description := nc u.description r.description,
                   completed :=
                     if nc u.completed (r.completed == 1) then 1 else 0,
                   dueDate := ncDue u.dueDate r.dueDate }
        else r) := by
    intro u rows2 h
    obtain ⟨r0, t, hf, hm, hrows2⟩ := updateTask_ok h
    obtain ⟨-, -, -, ht⟩ := make_ok_iff.mp hm
    subst ht hrows2
    apply List.map_congr_left
    intro r hr
    by_cases hid : r.id = id
    · have hr0 : r = r0 := find?_unique hu hf hr hid
      subst hr0
      simp [hid]
    · simp [hid]
  refine ⟨?_, hgen⟩
  intro newT rows2 h
  rw [hgen { title := some newT } rows2 h]
  apply List.map_congr_left
  intro r hr
  by_cases hid : r.id = id
  · have h01 : r.completed = 0 ∨ r.completed = 1 := by
      have := hwf r hr; omega
    rcases h01 with h01 | h01 <;> simp [hid, nc, ncDue, h01]
  · simp [hid]

/-- C1 witness: updating only the title of the concrete row `"t1"`. -/
theorem claim1_update_frame_witness :
    updateTask 10 exRows "t1" { title := some "New" } =
      .ok [{ exRowA with title := "New" }] ∧
    [{ exRowA with title := "New" }] = exRows.map (fun r =>
      if r.id == "t1" then { r with title := "New" } else r) :=
  ⟨rfl, (claim1_update_frame 10 exRows "t1" (by simp [exRows])
     (by decide)).1 "New" _ rfl⟩

/-- C2 (amended): when the existing row is itself reconstructible at the time
of the call, an update whose merge with the existing values fails entity
validation makes `updateTask` fail with exactly the validation error the
`Task` constructor raises on the merged fields, and the store is unchanged —
the partial update is rejected wholesale. -/
theorem claim2_update_validation (now : Int) (rows : List Row) (id : String)
    (u : Updates) (r0 : Row) (ex : Task) (e : VErr)
    (hf : rows.find? (fun r => r.id == id) = some r0)
    (hread : rowToTask now r0 = .ok ex)
    (hfail : Task.make now id (nc u.title ex.title)
        (nc u.description ex.description) (nc u.completed ex.completed)
        (ncDue u.dueDate ex.dueDate) ex.createdAt = .error e) :
    updateTaskRun now rows id u = (.error (.validation e), rows) := by
  obtain ⟨-, -, -, hex⟩ := rowToTask_ok_iff.mp hread
  subst hex
  simp only [reconstruct] at hfail
  simp [updateTaskRun, updateTask, getTaskById, hf, hread, reconstruct, hfail]

/-- C2 witness: merging an empty title over the readable row `"t1"` fails
with the constructor's EmptyTitle error and leaves the store unchanged. -/
theorem claim2_update_validation_witness :
    updateTaskRun 10 exRows "t1" { title := some "" } =
      (.error (.validation .emptyTitle), exRows) :=
  claim2_update_validation 10 exRows "t1" { title := some "" } exRowA
    (reconstruct exRowA) .emptyTitle rfl rfl rfl

/-- C2 counterexample: on a stored row whose own due date is already past,
an update supplying an empty title fails with the wrapped PastDueDate error
of the read-back, not with the EmptyTitle error the constructor would raise
on the merged fields — so the claim's universal statement fails. -/
theorem claim2_counterexample :
    updateTask 10 exRowsPast "t1" { title := some "" } =
      .error (.parse .pastDueDate) ∧
    Task.make 10 "t1" "" "d" false (some 5) 0 = .error .emptyTitle ∧
    DbErr.parse .pastDueDate ≠ DbErr.validation .emptyTitle :=
  ⟨rfl, rfl, by decide⟩

/-- C10 (amended): for a stored task with a non-null due date not yet past,
an update supplying an explicit `null` due date succeeds but leaves the store
(and so the due date) entirely unchanged, because the nullish-coalescing
merge makes `null` indistinguishable from an unsupplied field; in general no
successful update can turn that row's non-null due date into null.  (When the
stored due date is already past the update fails outright instead, see the
counterexample.) -/
theorem claim10_null_due_date (now : Int) (rows : List Row) (id : String)
    (r0 : Row) (d : Int)
    (hu : rows.Pairwise (fun a b => a.id ≠ b.id))
    (hf : rows.find? (fun r => r.id == id) = some r0)
    (ht : validateTitle r0.title = .ok ())
    (hid : validateId r0.id = .ok ())
    (hwf : r0.completed ≤ 1) (hd : r0.dueDate = some d) (hnp : now ≤ d) :
    updateTaskRun now rows id { dueDate := some none } = (.ok (), rows) ∧
    (∀ (u : Updates) (rows2 : List Row),
       updateTask now rows id u = .ok rows2 →
       ∀ r2 ∈ rows2, r2.id = id → r2.dueDate ≠ none) := by
  have hr0id : r0.id = id := by simpa using List.find?_some hf
  have hdue : validateDueDate now r0.dueDate = .ok () := by
    simp [validateDueDate, hd, Int.not_lt.mpr hnp]
  constructor
  · have hread : rowToTask now r0 = .ok (reconstruct r0) :=
      rowToTask_ok_iff.mpr ⟨ht, hid, hdue, rfl⟩
    have hmake : Task.make now id r0.title r0.description (r0.completed == 1)
        (ncDue (some none) r0.dueDate) r0.createdAt =
        .ok { id := id, title := r0.title, description := r0.description,
              completed := (r0.completed == 1),
              dueDate := ncDue (some none) r0.dueDate,
              createdAt := r0.createdAt } := by
      apply make_ok_iff.mpr
      refine ⟨ht, hr0id ▸ hid, ?_, rfl⟩
      rw [show ncDue (some none) r0.dueDate = r0.dueDate from by
        simp [ncDue]]
      exact hdue
    have hmap : rows.map (fun r =>
        if r.id == id then
          { r with title := r0.title, description := r0.description,
                   completed := if (r0.completed == 1) then 1 else 0,
                   dueDate := ncDue (some none) r0.dueDate }
        else r) = rows := by
      have hfix : ∀ r ∈ rows, (if r.id == id then
          { r with title := r0.title, description := r0.description,
                   completed := if (r0.completed == 1) then 1 else 0,
                   dueDate := ncDue (some none) r0.dueDate }
        else r) = r := by
        intro r hr
        by_cases hidr : r.id = id
        · rw [if_pos (by simpa using hidr)]
          have hr0 : r = r0 := find?_unique hu hf hr hidr
          subst hr0
          refine Row.eq_of_fields rfl rfl rfl ?_ rfl ?_
          · have h01 : r.completed = 0 ∨ r.completed = 1 := by omega
            rcases h01 with h01 | h01 <;> simp [h01]
          · rfl
        · rw [if_neg (by simpa using hidr)]
      rw [List.map_congr_left hfix]
      exact List.map_id rows
    have hread2 : rowToTask now r0 = .ok (reconstruct r0) :=
      rowToTask_ok_iff.mpr ⟨ht, hid, hdue, rfl⟩
    simp only [updateTaskRun, updateTask, getTaskById, hf, hread2,
      reconstruct, nc, hmake, hmap]
  · intro u rows2 h r2 hr2 hid2
    obtain ⟨r1, t, hf1, hm1, hrows2⟩ := updateTask_ok h
    have hr1 : r1 = r0 := by rw [hf1] at hf; exact (Option.some_inj.mp hf)
    subst hr1
    obtain ⟨-, -, -, htt⟩ := make_ok_iff.mp hm1
    subst htt hrows2
    obtain ⟨r3, hr3, hr3eq⟩ := List.mem_map.mp hr2
    by_cases hidr : r3.id = id
    · rw [if_pos (by simpa using hidr)] at hr3eq
      rw [← hr3eq]
      simp only [hd]
      exact ncDue_some_ne_none u.dueDate d
    · rw [if_neg (by simpa using hidr)] at hr3eq
      rw [← hr3eq] at hid2
      exact absurd hid2 hidr

/-- C10 witness: on the concrete still-readable row `"t1"` (due date 100,
clock 10), updating with an explicit null due date succeeds and changes
nothing. -/
theorem claim10_null_due_date_witness :
    updateTaskRun 10 exRows "t1" { dueDate := some none } = (.ok (), exRows) :=
  (claim10_null_due_date 10 exRows "t1" exRowA 100 (by simp [exRows]) rfl
    rfl rfl (by decide) rfl (by decide)).1

/-- C10 counterexample: on a stored row whose due date (5) is already past at
clock 10, `update("t1", {dueDate: null})` does not succeed — it fails at the
read-back — so the claim's "succeeds for every stored task with a non-null
due date" is false. -/
theorem claim10_counterexample :
    updateTaskRun 10 exRowsPast "t1" { dueDate := some none } =
      (.error (.parse .pastDueDate), exRowsPast) := rfl

/-- C4 (amended): when every stored row is reconstructible at the time of the
call, `getTasks` succeeds and returns exactly the reconstructed stored tasks
(a permutation of the row-wise reconstructions, one per row), ordered by
createdAt descending; on the empty store it returns the empty list (it can
never return a null). -/
theorem claim4_get_all (now : Int) (rows : List Row) (g : Row → Task)
    (hg : ∀ r ∈ rows, rowToTask now r = .ok (g r)) :
    ∃ ts, getTasks now rows = .ok ts ∧
      ts.Perm (rows.map g) ∧
      ts.Pairwise (fun a b => b.createdAt ≤ a.createdAt) ∧
      ts.length = rows.length ∧
      (rows = [] → ts = []) := by
  have hg2 : ∀ r ∈ rows.insertionSort createdLE, rowToTask now r = .ok (g r) :=
    fun r hr => hg r ((List.mem_insertionSort createdLE).mp hr)
  have hmap := mapRows_ok_of hg2
  have hga : ∀ a ∈ rows, (g a).createdAt = a.createdAt := by
    intro a ha
    obtain ⟨-, -, -, h4⟩ := rowToTask_ok_iff.mp (hg a ha)
    rw [h4]
    rfl
  refine ⟨((rows.insertionSort createdLE).map g).reverse,
    by simp [getTasks, hmap], ?_, ?_, ?_, ?_⟩
  · exact (List.reverse_perm _).trans
      ((List.perm_insertionSort createdLE rows).map g)
  · rw [List.pairwise_reverse, List.pairwise_map]
    have hs : (rows.insertionSort createdLE).Pairwise createdLE :=
      List.sorted_insertionSort createdLE rows
    refine hs.imp_of_mem ?_
    intro a b ha hb hab
    rw [hga a ((List.mem_insertionSort createdLE).mp ha),
        hga b ((List.mem_insertionSort createdLE).mp hb)]
    exact hab
  · simp [List.length_insertionSort]
  · intro h
    subst h
    rfl

/-- C4 witness: the two-row store is returned in createdAt-descending order
(`"t2"` before `"t1"`), as a permutation of the reconstructions. -/
theorem claim4_get_all_witness :
    ∃ ts, getTasks 10 exRowsTwo = .ok ts ∧
      ts.Perm (exRowsTwo.map reconstruct) ∧
      ts.Pairwise (fun a b => b.createdAt ≤ a.createdAt) ∧
      ts.length = exRowsTwo.length ∧
      (exRowsTwo = [] → ts = []) :=
  claim4_get_all 10 exRowsTwo reconstruct (by intro r hr; fin_cases hr <;> rfl)

/-- C4 counterexample: a store whose single row has a past due date makes
`getTasks` fail with the wrapped PastDueDate error instead of returning the
stored task — the claim's "for every store state" is false. -/
theorem claim4_counterexample :
    getTasks 10 exRowsPast = .error (.parse .pastDueDate) := rfl

/-- C9: every store read runs the full `Task` constructor on the row, so a
stored row whose due date is strictly before the clock at the read (title and
id being the valid ones the store wrote) cannot be read back: `rowToTask`
itself, `getTaskById`, `updateTask` (whatever the payload — the store is
untouched), and `getTasks` all fail with an error instead of returning it. -/
theorem claim9_read_revalidates (now : Int) (rows : List Row) (r : Row)
    (d : Int) (u : Updates)
    (hf : rows.find? (fun x => x.id == r.id) = some r)
    (ht : validateTitle r.title = .ok ()) (hid : validateId r.id = .ok ())
    (hd : r.dueDate = some d) (hpast : d < now) :
    rowToTask now r = .error .pastDueDate ∧
    getTaskById now rows r.id = .error (.parse .pastDueDate) ∧
    updateTaskRun now rows r.id u = (.error (.parse .pastDueDate), rows) ∧
    ∃ e, getTasks now rows = .error (.parse e) := by
  have hrt : rowToTask now r = .error .pastDueDate := by
    simp [rowToTask, Task.make, ht, hid, validateDueDate, hd, hpast]
  refine ⟨hrt, ?_, ?_, ?_⟩
  · simp [getTaskById, hf, hrt]
  · simp [updateTaskRun, updateTask, getTaskById, hf, hrt]
  · have hmem : r ∈ rows.insertionSort createdLE :=
      (List.mem_insertionSort createdLE).mpr (List.mem_of_find?_eq_some hf)
    obtain ⟨e2, he2⟩ := mapRows_error_of_mem hmem hrt
    exact ⟨e2, by simp [getTasks, he2]⟩

/-- C9 witness: the row with due date 5 is unreadable at clock 10 through
every read path. -/
theorem claim9_read_revalidates_witness :
    rowToTask 10 exRowPast = .error .pastDueDate ∧
    getTaskById 10 exRowsPast "t1" = .error (.parse .pastDueDate) ∧
    updateTaskRun 10 exRowsPast "t1" { completed := some true } =
      (.error (.parse .pastDueDate), exRowsPast) ∧
    ∃ e, getTasks 10 exRowsPast = .error (.parse e) :=
  claim9_read_revalidates 10 exRowsPast exRowPast 5
    { completed := some true } (by decide) rfl rfl rfl (by decide)

/-- A mutable `Date` heap for the clone theorems: cell 0 backs `createdAt`,
cell 1 backs a due date of 100 (still future at clock 10). -/
def exHeapW : Heap := [0, 100]

/-- The heap-referencing entity used by the clone witness/counterexample. -/
def exTaskHW : TaskH :=
  { id := "t1", title := "A", description := "d", completed := false,
    dueDate := some 1, createdAt := 0 }

/-- A heap whose due-date cell holds 5, already past at clock 10. -/
def exHeapPast : Heap := [0, 5]

lemma heapVal_set_ne (l : List Int) (i j : Nat) (v : Int) (hij : i ≠ j) :
    Heap.val (l.set i v) j = Heap.val l j := by
  rw [Heap.val, Heap.val, List.getD_eq_getElem?_getD,
      List.getD_eq_getElem?_getD, List.getElem?_set_ne hij]

lemma heapVal_append (l l2 : List Int) (j : Nat) (hj : j < l.length) :
    Heap.val (l ++ l2) j = Heap.val l j :=
  List.getD_append _ _ _ _ hj

lemma heapVal_snoc (l : List Int) (x : Int) :
    Heap.val (l ++ [x]) l.length = x := by
  rw [Heap.val, List.getD_append_right _ _ _ _ (le_refl _)]
  simp

/-- C8 (amended): for every entity whose references are into the heap, whose
title and id are valid, and whose due date value has not yet passed at the
time of the call (clone re-validates, see the counterexample), `clone()`
succeeds and yields an entity with the same values of all six fields whose
`Date` fields are freshly allocated: the copy's due-date reference differs
from the original's, and mutating the copy's due date (`setTime`) leaves the
value seen through the original's reference unchanged. -/
theorem claim8_clone_independent (now : Int) (h : Heap) (t : TaskH) (a : Nat)
    (hwf : t.wf h)
    (ht : validateTitle t.title = .ok ()) (hid : validateId t.id = .ok ())
    (hdue : t.dueDate = some a) (hnp : now ≤ Heap.val h a) :
    ∃ h2 t2 a2, cloneH now h t = .ok (h2, t2) ∧
      t2.id = t.id ∧ t2.title = t.title ∧ t2.description = t.description ∧
      t2.completed = t.completed ∧ t2.dueDate = some a2 ∧
      Heap.val h2 a2 = Heap.val h a ∧
      Heap.val h2 t2.createdAt = Heap.val h t.createdAt ∧
      a2 ≠ a ∧
      (∀ v : Int, Heap.val (Heap.setTime h2 a2 v) a = Heap.val h a) := by
  obtain ⟨hca, hda⟩ := hwf
  have haa : a < h.length := hda a hdue
  have hcopy : Heap.val
      ((h ++ [Heap.val h a]) ++ [Heap.val (h ++ [Heap.val h a]) t.createdAt])
      h.length = Heap.val h a := by
    rw [heapVal_append _ _ _ (by simp), heapVal_snoc]
  have hclone : cloneH now h t = .ok
      ((h ++ [Heap.val h a]) ++ [Heap.val (h ++ [Heap.val h a]) t.createdAt],
       { id := t.id, title := t.title, description := t.description,
         completed := t.completed, dueDate := some h.length,
         createdAt := (h ++ [Heap.val h a]).length }) := by
    have hcopy2 : Heap.val
        (h ++ [Heap.val h a, Heap.val (h ++ [Heap.val h a]) t.createdAt])
        (List.length h) = Heap.val h a := by simpa using hcopy
    unfold cloneH
    simp only [hdue, Heap.alloc, ht, hid, Option.map_some]
    simp [validateDueDate, hcopy2, Int.not_lt.mpr hnp]
  refine ⟨_, _, h.length, hclone, rfl, rfl, rfl, rfl, rfl, hcopy, ?_, ?_, ?_⟩
  · rw [heapVal_snoc]
    exact heapVal_append _ _ _ hca
  · exact Nat.ne_of_gt haa
  · intro v
    rw [Heap.setTime, heapVal_set_ne _ _ _ _ (Nat.ne_of_gt haa),
        heapVal_append _ _ _ (by simp; omega), heapVal_append _ _ _ haa]

/-- C8 witness: cloning the concrete entity (due-date cell 1 holding 100, at
clock 10) yields an independent copy. -/
theorem claim8_clone_independent_witness :
    ∃ h2 t2 a2, cloneH 10 exHeapW exTaskHW = .ok (h2, t2) ∧
      t2.id = exTaskHW.id ∧ t2.title = exTaskHW.title ∧
      t2.description = exTaskHW.description ∧
      t2.completed = exTaskHW.completed ∧ t2.dueDate = some a2 ∧
      Heap.val h2 a2 = Heap.val exHeapW 1 ∧
      Heap.val h2 t2.createdAt = Heap.val exHeapW exTaskHW.createdAt ∧
      a2 ≠ 1 ∧
      (∀ v : Int, Heap.val (Heap.setTime h2 a2 v) 1 = Heap.val exHeapW 1) :=
  claim8_clone_independent 10 exHeapW exTaskHW 1
    ⟨by decide, fun x hx => by simp [exTaskHW, exHeapW] at hx ⊢; omega⟩
    rfl rfl rfl (by decide)

/-- C8 counterexample: on an entity whose due-date cell holds 5, already past
at clock 10, `clone()` does not produce a copy at all — the constructor
re-validation throws PastDueDate — so the claim's "for every Task entity" is
false. -/
theorem claim8_counterexample :
    cloneH 10 exHeapPast exTaskHW = .error .pastDueDate := rfl

end TaskApp
